import Mathlib

/-!
Shallow embedding of the progression/history core of the workout tracker.

`src/lib/progression.ts` is embedded below as `calculateEstimatedOneRepMax`,
`isExerciseComplete` and `buildProgressionSuggestion`; `src/lib/history.ts`
as `pickBestSet`, `sessionMetric` and `summarizeExerciseHistory`.

Modelling choices:
* JavaScript numbers that hold weights are embedded as `ℚ`; rep counts and
  the rep-range bounds are integers in the data model and are embedded as `ℕ`.
* `completedAt?: string` becomes `Option String`; JavaScript's
  `Boolean(set.completedAt)` (false on `undefined` and on the empty string)
  becomes `jsTruthy`.
* The display-only `message` field of a suggestion (free-form text produced
  with `formatNumber`) is not modelled; no property concerns it.
-/

namespace Workout

/-- `ProgressionSettings` from `src/types.ts` (the `unit` field is a display
label that never enters the arithmetic). -/
structure ProgressionSettings where
  repMin : ℕ
  repMax : ℕ
  workSetsTarget : ℕ
  weightIncrement : ℚ
  unit : String
deriving Repr, DecidableEq

/-- The `SetLike` shape consumed by the progression engine. -/
structure SetLike where
  weight : ℚ
  reps : ℕ
  isWarmup : Bool
  completedAt : Option String
deriving Repr, DecidableEq

/-- JavaScript truthiness of an optional string: `Boolean(x)` is `false`
exactly on `undefined` and on the empty string. -/
def jsTruthy : Option String → Bool
  | none => false
  | some s => !s.isEmpty

/-- `calculateEstimatedOneRepMax` from `src/lib/progression.ts`:
`weight * (1 + reps / 30)`. -/
def calculateEstimatedOneRepMax (weight reps : ℚ) : ℚ :=
  weight * (1 + reps / 30)

/-- `isExerciseComplete` from `src/lib/progression.ts`. -/
def isExerciseComplete (settings : ProgressionSettings) (sets : List SetLike) : Bool :=
  let workSets := sets.filter fun s => !s.isWarmup
  if workSets.length < settings.workSetsTarget then
    false
  else
    (workSets.take settings.workSetsTarget).all fun s => jsTruthy s.completedAt

/-- The three suggestion kinds. -/
inductive SuggestionKind
  | increase_weight
  | add_reps
  | collect_more_sets
deriving Repr, DecidableEq

/-- A progression suggestion (without the display-only `message` string). -/
structure ProgressionSuggestion where
  kind : SuggestionKind
  suggestedWeight : ℚ
  nextReps : List ℕ
deriving Repr, DecidableEq

/-- The considered sets: completed work sets in input order, at most the
first `workSetsTarget` of them (the first `let` of
`buildProgressionSuggestion`). -/
def consideredSets (settings : ProgressionSettings) (sets : List SetLike) : List SetLike :=
  (sets.filter fun s => !s.isWarmup && jsTruthy s.completedAt).take settings.workSetsTarget

/-- The `nextReps` computation of the `add_reps` branch: initialise to the
current reps, locate the first set below the rep cap
(`findIndex((set) => set.reps < settings.repMax)`, with `none` playing
JavaScript's `-1`) and, when one exists, overwrite that entry with
`Math.min(reps + 1, repMax)`. The `getD` default `d` is never reached since
the found index is in bounds. -/
def addRepsNextReps (repMax : ℕ) (d : SetLike) (completedWorkSets : List SetLike) :
    List ℕ :=
  let nextReps := completedWorkSets.map fun s => s.reps
  match completedWorkSets.findIdx? fun s => s.reps < repMax with
  | some i => nextReps.set i (min ((completedWorkSets.getD i d).reps + 1) repMax)
  | none => nextReps

/-- The body of `buildProgressionSuggestion` once the considered sets are
known to be nonempty. -/
def buildFromConsidered (settings : ProgressionSettings) (first : SetLike)
    (rest : List SetLike) : ProgressionSuggestion :=
  let completedWorkSets := first :: rest
  if completedWorkSets.length < settings.workSetsTarget then
    { kind := .collect_more_sets,
      suggestedWeight := first.weight,
      nextReps := completedWorkSets.map fun s => s.reps }
  else
    let workingWeight := first.weight
    let allAtSameWeight := completedWorkSets.all fun s => s.weight == workingWeight
    let allHitRepCap := completedWorkSets.all fun s => settings.repMax ≤ s.reps
    if allAtSameWeight && allHitRepCap then
      { kind := .increase_weight,
        suggestedWeight := workingWeight + settings.weightIncrement,
        nextReps := completedWorkSets.map fun _ => settings.repMin }
    else
      { kind := .add_reps,
        suggestedWeight := workingWeight,
        nextReps := addRepsNextReps settings.repMax first completedWorkSets }

/-- `buildProgressionSuggestion` from `src/lib/progression.ts`. -/
def buildProgressionSuggestion (settings : ProgressionSettings) (sets : List SetLike) :
    Option ProgressionSuggestion :=
  match consideredSets settings sets with
  | [] => none
  | first :: rest => some (buildFromConsidered settings first rest)

/-- The caller-side invariants of a progression configuration (spec §3). -/
def ValidSettings (s : ProgressionSettings) : Prop :=
  1 ≤ s.repMin ∧ s.repMin ≤ s.repMax ∧ 1 ≤ s.workSetsTarget ∧ 0 < s.weightIncrement

/-! ## History summarizer (`src/lib/history.ts`) -/

/-- `SetEntry` from `src/types.ts`. -/
structure SetEntry where
  id : String
  sessionId : String
  exerciseId : String
  index : ℕ
  weight : ℚ
  reps : ℕ
  isWarmup : Bool
  completedAt : Option String
deriving Repr, DecidableEq

/-- The estimated-1RM score of a set entry, as computed inside
`pickBestSet` and `summarizeExerciseHistory`. -/
def entryScore (s : SetEntry) : ℚ :=
  calculateEstimatedOneRepMax s.weight s.reps

/-- One step of the `pickBestSet` loop: the mutable pair
`(best, bestScore)` updated by one set. -/
def pickBestStep (acc : Option SetEntry × ℚ) (s : SetEntry) : Option SetEntry × ℚ :=
  let score := entryScore s
  match acc with
  | (none, _) => (some s, score)
  | (some b, bestScore) => if bestScore < score then (some s, score) else (some b, bestScore)

/-- `pickBestSet` from `src/lib/history.ts`: linear scan keeping the first
set whose estimated 1RM strictly exceeds the best so far. -/
def pickBestSet (sets : List SetEntry) : Option SetEntry :=
  (sets.foldl pickBestStep (none, 0)).1

/-- The session shape consumed by `summarizeExerciseHistory`. -/
structure SessionInfo where
  id : String
  endedAt : Option String
deriving Repr, DecidableEq

/-- One `(session, sets)` input pair. -/
structure SessionWithSets where
  session : SessionInfo
  sets : List SetEntry
deriving Repr, DecidableEq

/-- `SessionHistoryMetric` from `src/lib/history.ts`. -/
structure SessionHistoryMetric where
  sessionId : String
  endedAt : String
  bestSet : Option SetEntry
  bestEstimatedOneRepMax : ℚ
deriving Repr, DecidableEq

/-- `ExerciseHistorySummary` from `src/lib/history.ts`. -/
structure ExerciseHistorySummary where
  sessions : List SessionHistoryMetric
  bestRecentSet : Option SetEntry
  trendDeltaOneRepMax : ℚ
deriving Repr, DecidableEq

/-- The per-session mapping step of `summarizeExerciseHistory` (the function
passed to `sessions.map`). -/
def sessionMetric (item : SessionWithSets) : SessionHistoryMetric :=
  let workSets := item.sets.filter fun s => !s.isWarmup
  let bestSet := pickBestSet workSets
  { sessionId := item.session.id,
    endedAt := item.session.endedAt.getD "",
    bestSet := bestSet,
    bestEstimatedOneRepMax :=
      match bestSet with
      | some b => calculateEstimatedOneRepMax b.weight b.reps
      | none => 0 }

/-- `summarizeExerciseHistory` from `src/lib/history.ts`. -/
def summarizeExerciseHistory (sessions : List SessionWithSets) : ExerciseHistorySummary :=
  let metrics := (sessions.map sessionMetric).filter fun m => 0 < m.endedAt.length
  let bestRecentSet := pickBestSet ((metrics.map fun m => m.bestSet).filterMap id)
  let trendDeltaOneRepMax : ℚ :=
    if 2 ≤ metrics.length then
      ((metrics.head?.map fun m => m.bestEstimatedOneRepMax).getD 0) -
        ((metrics.getLast?.map fun m => m.bestEstimatedOneRepMax).getD 0)
    else 0
  { sessions := metrics,
    bestRecentSet := bestRecentSet,
    trendDeltaOneRepMax := trendDeltaOneRepMax }

/-- The sessions retained by the summarizer's end-timestamp filter,
expressed on the raw input. -/
def retainedSessions (sessions : List SessionWithSets) : List SessionWithSets :=
  sessions.filter fun item => 0 < (item.session.endedAt.getD "").length

/-! ## Helper lemmas -/

theorem build_eq_some (settings : ProgressionSettings) (sets : List SetLike)
    (first : SetLike) (rest : List SetLike)
    (h : consideredSets settings sets = first :: rest) :
    buildProgressionSuggestion settings sets =
      some (buildFromConsidered settings first rest) := by
  unfold buildProgressionSuggestion
  rw [h]

theorem findIdxQ_none (p : SetLike → Bool) :
    ∀ (l : List SetLike) (i : ℕ), (∀ s ∈ l, p s = false) →
      l.findIdx? p i = none := by
  intro l
  induction l with
  | nil => intro i _; rfl
  | cons a t ih =>
    intro i h
    rw [List.findIdx?_cons, if_neg (by rw [h a (List.mem_cons_self a t)]; simp)]
    exact ih (i + 1) fun s hs => h s (List.mem_cons_of_mem a hs)

theorem findIdxQ_append (p : SetLike → Bool) :
    ∀ (l₁ : List SetLike) (x : SetLike) (l₂ : List SetLike) (i : ℕ),
      (∀ s ∈ l₁, p s = false) → p x = true →
      (l₁ ++ x :: l₂).findIdx? p i = some (i + l₁.length) := by
  intro l₁
  induction l₁ with
  | nil =>
    intro x l₂ i _ hx
    rw [List.nil_append, List.findIdx?_cons, if_pos hx, List.length_nil,
      Nat.add_zero]
  | cons a t ih =>
    intro x l₂ i h hx
    rw [List.cons_append, List.findIdx?_cons,
      if_neg (by rw [h a (List.mem_cons_self a t)]; simp),
      ih x l₂ (i + 1) (fun s hs => h s (List.mem_cons_of_mem a hs)) hx]
    congr 1
    simp [List.length_cons]
    omega

theorem getD_append_len (d : SetLike) :
    ∀ (l₁ : List SetLike) (x : SetLike) (l₂ : List SetLike),
      (l₁ ++ x :: l₂).getD l₁.length d = x := by
  intro l₁
  induction l₁ with
  | nil => intro x l₂; rfl
  | cons a t ih => intro x l₂; exact ih x l₂

theorem set_append_len (v : ℕ) :
    ∀ (l₁ : List ℕ) (y : ℕ) (l₂ : List ℕ),
      (l₁ ++ y :: l₂).set l₁.length v = l₁ ++ v :: l₂ := by
  intro l₁
  induction l₁ with
  | nil => intro y l₂; rfl
  | cons a t ih =>
    intro y l₂
    rw [List.cons_append, List.length_cons, List.set_cons_succ, ih y l₂,
      List.cons_append]

theorem addRepsNextReps_of_all_ge (repMax : ℕ) (d : SetLike) (l : List SetLike)
    (h : ∀ s ∈ l, repMax ≤ s.reps) :
    addRepsNextReps repMax d l = l.map fun s => s.reps := by
  unfold addRepsNextReps
  rw [findIdxQ_none _ l 0 fun s hs => by simp [Nat.not_lt.mpr (h s hs)]]

theorem addRepsNextReps_split (repMax : ℕ) (d : SetLike)
    (l₁ : List SetLike) (x : SetLike) (l₂ : List SetLike)
    (h₁ : ∀ s ∈ l₁, repMax ≤ s.reps) (hx : x.reps < repMax) :
    addRepsNextReps repMax d (l₁ ++ x :: l₂) =
      l₁.map (fun s => s.reps) ++
        min (x.reps + 1) repMax :: l₂.map fun s => s.reps := by
  unfold addRepsNextReps
  rw [findIdxQ_append _ l₁ x l₂ 0
      (fun s hs => by simp [Nat.not_lt.mpr (h₁ s hs)]) (by simp [hx]),
    Nat.zero_add]
  show ((l₁ ++ x :: l₂).map fun s => s.reps).set l₁.length
      (min (((l₁ ++ x :: l₂).getD l₁.length d).reps + 1) repMax) =
    l₁.map (fun s => s.reps) ++
      min (x.reps + 1) repMax :: l₂.map fun s => s.reps
  rw [getD_append_len d l₁ x l₂, List.map_append, List.map_cons]
  have hlen : l₁.length = (l₁.map fun s => s.reps).length := (List.length_map l₁ _).symm
  rw [hlen, set_append_len]

theorem exists_first_below (repMax : ℕ) :
    ∀ l : List SetLike, ¬ (∀ s ∈ l, repMax ≤ s.reps) →
      ∃ l₁ x l₂, l = l₁ ++ x :: l₂ ∧ (∀ s ∈ l₁, repMax ≤ s.reps) ∧
        x.reps < repMax := by
  intro l
  induction l with
  | nil => intro h; exact absurd (fun s hs => absurd hs (List.not_mem_nil s)) h
  | cons a t ih =>
    intro h
    by_cases ha : a.reps < repMax
    · exact ⟨[], a, t, rfl, fun s hs => absurd hs (List.not_mem_nil s), ha⟩
    · have hge : repMax ≤ a.reps := Nat.not_lt.mp ha
      have ht : ¬ (∀ s ∈ t, repMax ≤ s.reps) := by
        intro hall
        apply h
        intro s hs
        rcases List.mem_cons.mp hs with rfl | hs'
        · exact hge
        · exact hall s hs'
      obtain ⟨l₁, x, l₂, hdec, hfront, hx⟩ := ih ht
      refine ⟨a :: l₁, x, l₂, by rw [List.cons_append, hdec], ?_, hx⟩
      intro s hs
      rcases List.mem_cons.mp hs with rfl | hs'
      · exact hge
      · exact hfront s hs'

theorem considered_condition_iff (settings : ProgressionSettings)
    (first : SetLike) (rest : List SetLike) :
    ((((first :: rest).all fun s => s.weight == first.weight) &&
        ((first :: rest).all fun s => settings.repMax ≤ s.reps)) = true) ↔
      ((∀ s ∈ first :: rest, s.weight = first.weight) ∧
        (∀ s ∈ first :: rest, settings.repMax ≤ s.reps)) := by
  rw [Bool.and_eq_true, List.all_eq_true, List.all_eq_true]
  constructor
  · rintro ⟨h1, h2⟩
    exact ⟨fun s hs => beq_iff_eq.mp (h1 s hs), fun s hs => of_decide_eq_true (h2 s hs)⟩
  · rintro ⟨h1, h2⟩
    exact ⟨fun s hs => beq_iff_eq.mpr (h1 s hs), fun s hs => decide_eq_true (h2 s hs)⟩

theorem buildFromConsidered_collect (settings : ProgressionSettings)
    (first : SetLike) (rest : List SetLike)
    (hlt : (first :: rest).length < settings.workSetsTarget) :
    buildFromConsidered settings first rest =
      { kind := .collect_more_sets,
        suggestedWeight := first.weight,
        nextReps := (first :: rest).map fun s => s.reps } := by
  unfold buildFromConsidered
  rw [if_pos hlt]

theorem buildFromConsidered_increase (settings : ProgressionSettings)
    (first : SetLike) (rest : List SetLike)
    (hge : ¬ (first :: rest).length < settings.workSetsTarget)
    (hw : ∀ s ∈ first :: rest, s.weight = first.weight)
    (hr : ∀ s ∈ first :: rest, settings.repMax ≤ s.reps) :
    buildFromConsidered settings first rest =
      { kind := .increase_weight,
        suggestedWeight := first.weight + settings.weightIncrement,
        nextReps := (first :: rest).map fun _ => settings.repMin } := by
  unfold buildFromConsidered
  rw [if_neg hge, if_pos ((considered_condition_iff settings first rest).mpr ⟨hw, hr⟩)]

theorem buildFromConsidered_add (settings : ProgressionSettings)
    (first : SetLike) (rest : List SetLike)
    (hge : ¬ (first :: rest).length < settings.workSetsTarget)
    (hnot : ¬ ((∀ s ∈ first :: rest, s.weight = first.weight) ∧
        (∀ s ∈ first :: rest, settings.repMax ≤ s.reps))) :
    buildFromConsidered settings first rest =
      { kind := .add_reps,
        suggestedWeight := first.weight,
        nextReps := addRepsNextReps settings.repMax first (first :: rest) } := by
  unfold buildFromConsidered
  rw [if_neg hge, if_neg]
  intro hc
  exact hnot ((considered_condition_iff settings first rest).mp hc)

/-! ## Shared concrete inputs for witnesses and counterexamples -/

/-- The spec's running example configuration:
repMin 6, repMax 10, workSetsTarget 3, weightIncrement 5, unit lb. -/
def exampleSettings : ProgressionSettings :=
  { repMin := 6, repMax := 10, workSetsTarget := 3, weightIncrement := 5, unit := "lb" }

/-- A completed work set at some weight and rep count. -/
def doneSet (w : ℚ) (r : ℕ) : SetLike :=
  { weight := w, reps := r, isWarmup := false, completedAt := some "2026-02-16T00:00:00.000Z" }

/-- An uncompleted work set at some weight and rep count. -/
def pendingSet (w : ℚ) (r : ℕ) : SetLike :=
  { weight := w, reps := r, isWarmup := false, completedAt := none }

/-- Three completed work sets at 135 for 10 reps (spec example scenario 1). -/
def threeAtMax : List SetLike := [doneSet 135 10, doneSet 135 10, doneSet 135 10]

/-- Two completed work sets at 135 for 10 reps (spec example scenario 3). -/
def twoAtMax : List SetLike := [doneSet 135 10, doneSet 135 10]

/-! ## Claim theorems -/

/-- C2: whenever the considered sets number exactly `workSetsTarget`, all share
the first considered set's weight, and every considered set's reps reach
`repMax`, `buildProgressionSuggestion` returns kind `increase_weight` with
`suggestedWeight` equal to that weight plus `weightIncrement` and `nextReps`
equal to `workSetsTarget` copies of `repMin`. -/
theorem C2_increase_weight (settings : ProgressionSettings) (sets : List SetLike)
    (first : SetLike) (rest : List SetLike)
    (hcons : consideredSets settings sets = first :: rest)
    (hlen : (first :: rest).length = settings.workSetsTarget)
    (hweight : ∀ s ∈ first :: rest, s.weight = first.weight)
    (hreps : ∀ s ∈ first :: rest, settings.repMax ≤ s.reps) :
    buildProgressionSuggestion settings sets =
      some { kind := .increase_weight,
             suggestedWeight := first.weight + settings.weightIncrement,
             nextReps := List.replicate settings.workSetsTarget settings.repMin } := by
  rw [build_eq_some settings sets first rest hcons,
    buildFromConsidered_increase settings first rest (by omega) hweight hreps,
    List.map_const', hlen]

/-- Witness for C2 at the spec's example scenario 1. -/
theorem C2_witness :
    buildProgressionSuggestion exampleSettings threeAtMax =
      some { kind := .increase_weight, suggestedWeight := 140, nextReps := [6, 6, 6] } := by
  have h := C2_increase_weight exampleSettings threeAtMax (doneSet 135 10)
    [doneSet 135 10, doneSet 135 10] (by decide) (by decide) (by decide) (by decide)
  rw [h]
  simp only [doneSet, exampleSettings, List.replicate]
  norm_num

/-- C3 fails as stated: with zero considered sets (still fewer than
`workSetsTarget`) the function returns no suggestion at all rather than a
`collect_more_sets` suggestion. -/
theorem C3_counterexample :
    (consideredSets exampleSettings ([] : List SetLike)).length <
        exampleSettings.workSetsTarget ∧
    ¬ ∃ sg, buildProgressionSuggestion exampleSettings [] = some sg ∧
        sg.kind = SuggestionKind.collect_more_sets := by
  refine ⟨by decide, ?_⟩
  rintro ⟨sg, hsg, -⟩
  exact Option.noConfusion hsg

/-- C3 (amended): whenever there is at least one considered set and the
considered-set count is strictly less than `workSetsTarget`,
`buildProgressionSuggestion` returns kind `collect_more_sets` with `nextReps`
equal to the considered sets' current reps values unchanged, in order. -/
theorem C3_collect_more_sets (settings : ProgressionSettings) (sets : List SetLike)
    (first : SetLike) (rest : List SetLike)
    (hcons : consideredSets settings sets = first :: rest)
    (hlt : (first :: rest).length < settings.workSetsTarget) :
    buildProgressionSuggestion settings sets =
      some { kind := .collect_more_sets,
             suggestedWeight := first.weight,
             nextReps := (first :: rest).map fun s => s.reps } := by
  rw [build_eq_some settings sets first rest hcons,
    buildFromConsidered_collect settings first rest hlt]

/-- Witness for the amended C3 at the spec's example scenario 3. -/
theorem C3_witness :
    buildProgressionSuggestion exampleSettings twoAtMax =
      some { kind := .collect_more_sets, suggestedWeight := 135, nextReps := [10, 10] } := by
  have h := C3_collect_more_sets exampleSettings twoAtMax (doneSet 135 10)
    [doneSet 135 10] (by decide) (by decide)
  rw [h]
  decide

/-- C7: with a positive work-set target, `buildProgressionSuggestion` returns
no suggestion exactly on inputs with no completed work set, and some
suggestion whenever at least one completed work set exists. -/
theorem C7_none_iff_no_completed_work_set (settings : ProgressionSettings)
    (sets : List SetLike) (htarget : 1 ≤ settings.workSetsTarget) :
    ((sets.filter fun s => !s.isWarmup && jsTruthy s.completedAt) = [] →
      buildProgressionSuggestion settings sets = none) ∧
    ((sets.filter fun s => !s.isWarmup && jsTruthy s.completedAt) ≠ [] →
      (buildProgressionSuggestion settings sets).isSome = true) := by
  constructor
  · intro h
    unfold buildProgressionSuggestion consideredSets
    rw [h]
    simp
  · intro h
    have hne : consideredSets settings sets ≠ [] := by
      unfold consideredSets
      cases hf : (sets.filter fun s => !s.isWarmup && jsTruthy s.completedAt) with
      | nil => exact absurd hf h
      | cons a t =>
        cases ht : settings.workSetsTarget with
        | zero => omega
        | succ n => simp
    cases hc : consideredSets settings sets with
    | nil => exact absurd hc hne
    | cons first rest =>
      rw [build_eq_some settings sets first rest hc]
      rfl

/-- Witness for C7 on the empty set list and on a single completed work set. -/
theorem C7_witness :
    buildProgressionSuggestion exampleSettings [] = none ∧
    (buildProgressionSuggestion exampleSettings [doneSet 135 10]).isSome = true :=
  ⟨(C7_none_iff_no_completed_work_set exampleSettings [] (by decide)).1 rfl,
   (C7_none_iff_no_completed_work_set exampleSettings [doneSet 135 10] (by decide)).2
     (by decide)⟩

/-- C8: the estimated-1RM primitive is `weight * (1 + reps / 30)`, reduces to
the raw weight at zero reps and to zero at zero weight, and the history
summarizer's per-set score is this same shared function. -/
theorem C8_shared_one_rep_max_formula :
    (∀ w r : ℚ, 0 ≤ w → 0 ≤ r →
      calculateEstimatedOneRepMax w r = w * (1 + r / 30)) ∧
    (∀ w : ℚ, calculateEstimatedOneRepMax w 0 = w) ∧
    (∀ r : ℚ, calculateEstimatedOneRepMax 0 r = 0) ∧
    (∀ s : SetEntry, entryScore s = calculateEstimatedOneRepMax s.weight s.reps) := by
  refine ⟨fun w r _ _ => rfl, fun w => ?_, fun r => ?_, fun s => rfl⟩
  · simp [calculateEstimatedOneRepMax]
  · simp [calculateEstimatedOneRepMax]

/-- Witness for C8 at the spec's example scenario 5. -/
theorem C8_witness :
    calculateEstimatedOneRepMax 200 5 = 200 * (1 + 5 / 30) :=
  C8_shared_one_rep_max_formula.1 200 5 (by norm_num) (by norm_num)

/-- A configuration with work-set target 1, used to exhibit the divergence of
completion and suggestion set selection. -/
def divergenceSettings : ProgressionSettings :=
  { repMin := 6, repMax := 10, workSetsTarget := 1, weightIncrement := 5, unit := "lb" }

/-- An uncompleted first work set followed by a completed one. -/
def divergenceSets : List SetLike := [pendingSet 135 8, doneSet 135 8]

/-- C10: completion and suggestion inspect different set windows — on an
uncompleted first work set followed by a completed one, with target 1,
`isExerciseComplete` is false while `buildProgressionSuggestion` still
produces an actionable (`add_reps`) suggestion. -/
theorem C10_completion_vs_suggestion_divergence :
    ValidSettings divergenceSettings ∧
    isExerciseComplete divergenceSettings divergenceSets = false ∧
    ∃ sg, buildProgressionSuggestion divergenceSettings divergenceSets = some sg ∧
      (sg.kind = SuggestionKind.increase_weight ∨ sg.kind = SuggestionKind.add_reps) := by
  refine ⟨⟨by decide, by decide, by decide, by decide⟩, by decide,
    ⟨{ kind := .add_reps, suggestedWeight := 135, nextReps := [9] }, by decide, Or.inr rfl⟩⟩

/-- Completed sets at one weight with reps 10, 8 and 9
(spec example scenario 2). -/
def mixedReps : List SetLike := [doneSet 135 10, doneSet 135 8, doneSet 135 9]

/-- A two-set target configuration used for the C1 counterexample. -/
def pairSettings : ProgressionSettings :=
  { repMin := 6, repMax := 10, workSetsTarget := 2, weightIncrement := 5, unit := "lb" }

/-- Two completed work sets at one weight with reps 9 and 8: the first set
below the rep cap is not the lowest-rep set. -/
def nearCapSets : List SetLike := [doneSet 135 9, doneSet 135 8]

/-- C1 fails as stated: the `add_reps` branch bumps only the first considered
set whose reps are below `repMax`, not every set tied at the minimum reps.
With considered reps [9, 8] and repMax 10, the code proposes [10, 8]
(index 0 bumped), while the claim demands [9, 9] (the tied-lowest set at
index 1 bumped). -/
theorem C1_counterexample :
    buildProgressionSuggestion pairSettings nearCapSets =
      some { kind := .add_reps, suggestedWeight := 135, nextReps := [10, 8] } ∧
    (consideredSets pairSettings nearCapSets).map (fun s => s.reps) = [9, 8] ∧
    ¬ buildProgressionSuggestion pairSettings nearCapSets =
        some { kind := .add_reps, suggestedWeight := 135, nextReps := [9, 9] } := by
  decide

/-- C1 (amended): when the considered sets number exactly `workSetsTarget`
but the weight-tie/rep-cap condition fails, the suggestion is `add_reps` at
the first considered set's weight, and `nextReps` proposes
`min (reps + 1) repMax` for the first considered set (in input order) whose
reps are below `repMax`, leaving every other entry at its current reps; when
every considered set's reps are at or above `repMax`, `nextReps` is the
current reps unchanged. -/
theorem C1_add_reps_first_below_max (settings : ProgressionSettings)
    (sets : List SetLike) (first : SetLike) (rest : List SetLike)
    (_hvalid : settings.repMin ≤ settings.repMax)
    (hcons : consideredSets settings sets = first :: rest)
    (hlen : (first :: rest).length = settings.workSetsTarget)
    (hnot : ¬ ((∀ s ∈ first :: rest, s.weight = first.weight) ∧
        (∀ s ∈ first :: rest, settings.repMax ≤ s.reps))) :
    (∀ (l₁ : List SetLike) (x : SetLike) (l₂ : List SetLike),
      first :: rest = l₁ ++ x :: l₂ →
      (∀ s ∈ l₁, settings.repMax ≤ s.reps) → x.reps < settings.repMax →
      buildProgressionSuggestion settings sets =
        some { kind := .add_reps,
               suggestedWeight := first.weight,
               nextReps := l₁.map (fun s => s.reps) ++
                 min (x.reps + 1) settings.repMax :: l₂.map fun s => s.reps }) ∧
    ((∀ s ∈ first :: rest, settings.repMax ≤ s.reps) →
      buildProgressionSuggestion settings sets =
        some { kind := .add_reps,
               suggestedWeight := first.weight,
               nextReps := (first :: rest).map fun s => s.reps }) := by
  constructor
  · intro l₁ x l₂ hsplit hfront hx
    rw [build_eq_some settings sets first rest hcons,
      buildFromConsidered_add settings first rest (by omega) hnot, hsplit,
      addRepsNextReps_split settings.repMax first l₁ x l₂ hfront hx]
  · intro hall
    rw [build_eq_some settings sets first rest hcons,
      buildFromConsidered_add settings first rest (by omega) hnot,
      addRepsNextReps_of_all_ge settings.repMax first (first :: rest) hall]

/-- Witness for the amended C1 at the spec's example scenario 2: the first
set below the cap is the 8-rep set, bumped to 9. -/
theorem C1_witness :
    buildProgressionSuggestion exampleSettings mixedReps =
      some { kind := .add_reps, suggestedWeight := 135, nextReps := [10, 9, 9] } := by
  have h := (C1_add_reps_first_below_max exampleSettings mixedReps (doneSet 135 10)
    [doneSet 135 8, doneSet 135 9] (by decide) (by decide) (by decide) (by decide)).1
    [doneSet 135 10] (doneSet 135 8) [doneSet 135 9] (by decide) (by decide) (by decide)
  rw [h]
  decide

theorem forall₂_map_self {α β : Type} (P : α → β → Prop) (f : α → β) :
    ∀ l : List α, (∀ a ∈ l, P a (f a)) → List.Forall₂ P l (l.map f) := by
  intro l
  induction l with
  | nil => intro _; exact List.Forall₂.nil
  | cons a t ih =>
    intro h
    exact List.Forall₂.cons (h a (List.mem_cons_self a t))
      (ih fun x hx => h x (List.mem_cons_of_mem a hx))

/-- C9: whenever `buildProgressionSuggestion` returns an `add_reps`
suggestion, each `nextReps` entry is at least the corresponding considered
set's current reps (reps never regress), each entry is either unchanged or
exactly one greater, and any incremented entry does not exceed `repMax`
(the +1 is capped at `repMax`). -/
theorem C9_add_reps_never_regress (settings : ProgressionSettings) (sets : List SetLike)
    (sg : ProgressionSuggestion)
    (hsg : buildProgressionSuggestion settings sets = some sg)
    (hkind : sg.kind = SuggestionKind.add_reps) :
    List.Forall₂ (fun (s : SetLike) (n : ℕ) =>
        s.reps ≤ n ∧ (n = s.reps ∨ n = s.reps + 1) ∧
          (n ≠ s.reps → n ≤ settings.repMax))
      (consideredSets settings sets) sg.nextReps := by
  cases hcons : consideredSets settings sets with
  | nil =>
    unfold buildProgressionSuggestion at hsg
    rw [hcons] at hsg
    exact Option.noConfusion hsg
  | cons first rest =>
    rw [build_eq_some settings sets first rest hcons] at hsg
    have hsg' : buildFromConsidered settings first rest = sg := Option.some.inj hsg
    by_cases hlt : (first :: rest).length < settings.workSetsTarget
    · rw [buildFromConsidered_collect settings first rest hlt] at hsg'
      subst hsg'
      exact SuggestionKind.noConfusion hkind
    · by_cases hcond : ((∀ s ∈ first :: rest, s.weight = first.weight) ∧
          (∀ s ∈ first :: rest, settings.repMax ≤ s.reps))
      · rw [buildFromConsidered_increase settings first rest hlt hcond.1 hcond.2] at hsg'
        subst hsg'
        exact SuggestionKind.noConfusion hkind
      · rw [buildFromConsidered_add settings first rest hlt hcond] at hsg'
        subst hsg'
        show List.Forall₂ _ (first :: rest)
          (addRepsNextReps settings.repMax first (first :: rest))
        by_cases hall : ∀ s ∈ first :: rest, settings.repMax ≤ s.reps
        · rw [addRepsNextReps_of_all_ge settings.repMax first (first :: rest) hall]
          exact forall₂_map_self _ _ (first :: rest)
            fun s _ => ⟨Nat.le_refl _, Or.inl rfl, fun hne => absurd rfl hne⟩
        · obtain ⟨l₁, x, l₂, hdec, hfront, hx⟩ :=
            exists_first_below settings.repMax (first :: rest) hall
          rw [hdec, addRepsNextReps_split settings.repMax first l₁ x l₂ hfront hx]
          refine List.rel_append ?_ (List.Forall₂.cons ?_ ?_)
          · exact forall₂_map_self _ _ l₁
              fun s _ => ⟨Nat.le_refl _, Or.inl rfl, fun hne => absurd rfl hne⟩
          · exact ⟨by omega, by omega, by omega⟩
          · exact forall₂_map_self _ _ l₂
              fun s _ => ⟨Nat.le_refl _, Or.inl rfl, fun hne => absurd rfl hne⟩

/-- Witness for C9 at the spec's example scenario 2. -/
theorem C9_witness :
    List.Forall₂ (fun (s : SetLike) (n : ℕ) =>
        s.reps ≤ n ∧ (n = s.reps ∨ n = s.reps + 1) ∧
          (n ≠ s.reps → n ≤ exampleSettings.repMax))
      (consideredSets exampleSettings mixedReps) [10, 9, 9] :=
  C9_add_reps_never_regress exampleSettings mixedReps
    { kind := .add_reps, suggestedWeight := 135, nextReps := [10, 9, 9] }
    (by decide) rfl

/-- C4: `isExerciseComplete` is false when fewer than `workSetsTarget` work
sets exist; otherwise it is true exactly when each of the first
`workSetsTarget` work sets (in input order) carries a completion timestamp,
and it is unaffected by work sets beyond that window. -/
theorem C4_exercise_completion (settings : ProgressionSettings) :
    (∀ sets : List SetLike,
      (sets.filter fun s => !s.isWarmup).length < settings.workSetsTarget →
      isExerciseComplete settings sets = false) ∧
    (∀ sets : List SetLike,
      settings.workSetsTarget ≤ (sets.filter fun s => !s.isWarmup).length →
      (isExerciseComplete settings sets = true ↔
        ∀ s ∈ (sets.filter fun s => !s.isWarmup).take settings.workSetsTarget,
          jsTruthy s.completedAt = true)) ∧
    (∀ sets sets' : List SetLike,
      settings.workSetsTarget ≤ (sets.filter fun s => !s.isWarmup).length →
      settings.workSetsTarget ≤ (sets'.filter fun s => !s.isWarmup).length →
      (sets.filter fun s => !s.isWarmup).take settings.workSetsTarget =
        (sets'.filter fun s => !s.isWarmup).take settings.workSetsTarget →
      isExerciseComplete settings sets = isExerciseComplete settings sets') := by
  refine ⟨?_, ?_, ?_⟩
  · intro sets h
    unfold isExerciseComplete
    rw [if_pos h]
  · intro sets h
    unfold isExerciseComplete
    rw [if_neg (by omega)]
    exact List.all_eq_true
  · intro sets sets' h1 h2 htake
    unfold isExerciseComplete
    rw [if_neg (by omega), if_neg (by omega), htake]

/-- Three completed work sets (spec example scenario 4, completed case). -/
def completeSets : List SetLike := [doneSet 135 10, doneSet 135 9, doneSet 135 8]

/-- Witness for C4: appending an uncompleted fourth work set beyond the
target window does not change the completion verdict. -/
theorem C4_witness :
    isExerciseComplete exampleSettings completeSets =
      isExerciseComplete exampleSettings (completeSets ++ [pendingSet 135 8]) :=
  (C4_exercise_completion exampleSettings).2.2 completeSets
    (completeSets ++ [pendingSet 135 8]) (by decide) (by decide) (by decide)

/-! ## History lemmas -/

/-- Recursive restatement of the `pickBestSet` loop once a current best is
held: keep the current best unless a strictly higher score appears. -/
def pickBestGo (b : SetEntry) : List SetEntry → SetEntry
  | [] => b
  | s :: rest => if entryScore b < entryScore s then pickBestGo s rest else pickBestGo b rest

theorem pickBestStep_none (s : SetEntry) :
    pickBestStep (none, 0) s = (some s, entryScore s) := rfl

theorem foldl_pickBestStep (l : List SetEntry) : ∀ b : SetEntry,
    l.foldl pickBestStep (some b, entryScore b) =
      (some (pickBestGo b l), entryScore (pickBestGo b l)) := by
  induction l with
  | nil => intro b; rfl
  | cons x t ih =>
    intro b
    have hstep : pickBestStep (some b, entryScore b) x =
        if entryScore b < entryScore x then (some x, entryScore x)
        else (some b, entryScore b) := rfl
    show t.foldl pickBestStep (pickBestStep (some b, entryScore b) x) = _
    rw [hstep]
    by_cases h : entryScore b < entryScore x
    · rw [if_pos h, ih x]
      simp only [pickBestGo, if_pos h]
    · rw [if_neg h, ih b]
      simp only [pickBestGo, if_neg h]

theorem pickBestSet_nil : pickBestSet [] = none := rfl

theorem pickBestSet_cons (a : SetEntry) (t : List SetEntry) :
    pickBestSet (a :: t) = some (pickBestGo a t) := by
  unfold pickBestSet
  rw [List.foldl_cons, pickBestStep_none, foldl_pickBestStep]

theorem pickBestGo_first_max (l : List SetEntry) : ∀ b : SetEntry,
    ∃ l₁ l₂, b :: l = l₁ ++ pickBestGo b l :: l₂ ∧
      (∀ s ∈ l₁, entryScore s < entryScore (pickBestGo b l)) ∧
      (∀ s ∈ b :: l, entryScore s ≤ entryScore (pickBestGo b l)) := by
  induction l with
  | nil =>
    intro b
    refine ⟨[], [], rfl, ?_, ?_⟩
    · intro s hs
      exact absurd hs (List.not_mem_nil s)
    · intro s hs
      rcases List.mem_cons.mp hs with rfl | hs'
      · exact le_refl _
      · exact absurd hs' (List.not_mem_nil s)
  | cons x t ih =>
    intro b
    by_cases h : entryScore b < entryScore x
    · have hgo : pickBestGo b (x :: t) = pickBestGo x t := by
        simp only [pickBestGo, if_pos h]
      obtain ⟨l₁, l₂, hdec, hlt, hle⟩ := ih x
      have hbr : entryScore b < entryScore (pickBestGo x t) :=
        lt_of_lt_of_le h (hle x (List.mem_cons_self x t))
      refine ⟨b :: l₁, l₂, ?_, ?_, ?_⟩
      · rw [hgo]
        exact congrArg (List.cons b) hdec
      · intro s hs
        rw [hgo]
        rcases List.mem_cons.mp hs with rfl | hs'
        · exact hbr
        · exact hlt s hs'
      · intro s hs
        rw [hgo]
        rcases List.mem_cons.mp hs with rfl | hs'
        · exact le_of_lt hbr
        · exact hle s hs'
    · have hgo : pickBestGo b (x :: t) = pickBestGo b t := by
        simp only [pickBestGo, if_neg h]
      have hxb : entryScore x ≤ entryScore b := le_of_not_lt h
      obtain ⟨l₁, l₂, hdec, hlt, hle⟩ := ih b
      have hble : entryScore b ≤ entryScore (pickBestGo b t) :=
        hle b (List.mem_cons_self b t)
      cases l₁ with
      | nil =>
        rw [List.nil_append] at hdec
        injection hdec with h1 h2
        refine ⟨[], x :: t, ?_, ?_, ?_⟩
        · rw [List.nil_append, hgo, ← h1]
        · intro s hs
          exact absurd hs (List.not_mem_nil s)
        · intro s hs
          rw [hgo, ← h1]
          rcases List.mem_cons.mp hs with rfl | hs'
          · exact le_refl _
          · rcases List.mem_cons.mp hs' with rfl | hs''
            · exact hxb
            · have := hle s (List.mem_cons_of_mem b hs'')
              rw [← h1] at this
              exact this
      | cons a t₁ =>
        rw [List.cons_append] at hdec
        injection hdec with h1 h2
        subst h1
        refine ⟨b :: x :: t₁, l₂, ?_, ?_, ?_⟩
        · rw [hgo]
          exact congrArg (fun u => b :: x :: u) h2
        · intro s hs
          rw [hgo]
          have hblt : entryScore b < entryScore (pickBestGo b t) :=
            hlt b (List.mem_cons_self b t₁)
          rcases List.mem_cons.mp hs with rfl | hs'
          · exact hblt
          · rcases List.mem_cons.mp hs' with rfl | hs''
            · exact lt_of_le_of_lt hxb hblt
            · exact hlt s (List.mem_cons_of_mem b hs'')
        · intro s hs
          rw [hgo]
          rcases List.mem_cons.mp hs with rfl | hs'
          · exact hble
          · rcases List.mem_cons.mp hs' with rfl | hs''
            · exact le_trans hxb hble
            · exact hle s (List.mem_cons_of_mem b hs'')

theorem metrics_eq (sessions : List SessionWithSets) :
    ((sessions.map sessionMetric).filter fun m => 0 < m.endedAt.length) =
      (retainedSessions sessions).map sessionMetric := by
  rw [List.filter_map]
  rfl

theorem summarize_sessions_eq (sessions : List SessionWithSets) :
    (summarizeExerciseHistory sessions).sessions =
      (retainedSessions sessions).map sessionMetric := by
  show ((sessions.map sessionMetric).filter fun m => 0 < m.endedAt.length) = _
  exact metrics_eq sessions

theorem summarize_trend_eq (sessions : List SessionWithSets) :
    (summarizeExerciseHistory sessions).trendDeltaOneRepMax =
      if 2 ≤ (retainedSessions sessions).length then
        ((((retainedSessions sessions).map sessionMetric).head?.map
            fun m => m.bestEstimatedOneRepMax).getD 0) -
          ((((retainedSessions sessions).map sessionMetric).getLast?.map
            fun m => m.bestEstimatedOneRepMax).getD 0)
      else 0 := by
  simp only [summarizeExerciseHistory]
  rw [metrics_eq sessions, List.length_map]

/-- C5: `summarizeExerciseHistory` keeps exactly the sessions with a (truthy)
end timestamp, in order; with at least two retained sessions the trend delta
is the first retained session's best estimated 1RM minus the last retained
session's, and with fewer than two it is exactly 0. -/
theorem C5_history_excludes_unended (sessions : List SessionWithSets) :
    (summarizeExerciseHistory sessions).sessions =
      (retainedSessions sessions).map sessionMetric ∧
    (2 ≤ (retainedSessions sessions).length →
      (summarizeExerciseHistory sessions).trendDeltaOneRepMax =
        (((retainedSessions sessions).head?.map
            fun i => (sessionMetric i).bestEstimatedOneRepMax).getD 0) -
          (((retainedSessions sessions).getLast?.map
            fun i => (sessionMetric i).bestEstimatedOneRepMax).getD 0)) ∧
    ((retainedSessions sessions).length < 2 →
      (summarizeExerciseHistory sessions).trendDeltaOneRepMax = 0) := by
  refine ⟨summarize_sessions_eq sessions, ?_, ?_⟩
  · intro h2
    rw [summarize_trend_eq sessions, if_pos h2, List.head?_map, List.getLast?_map,
      Option.map_map, Option.map_map]
    rfl
  · intro hlt
    rw [summarize_trend_eq sessions, if_neg (by omega)]

/-- A set entry used in history examples. -/
def histEntry (i : String) (w : ℚ) (r : ℕ) : SetEntry :=
  { id := i, sessionId := "s", exerciseId := "e", index := 0, weight := w, reps := r,
    isWarmup := false, completedAt := some "2026-02-16T00:00:00.000Z" }

/-- Three sessions, the middle one still in progress (no end timestamp). -/
def exampleSessions : List SessionWithSets :=
  [{ session := { id := "a", endedAt := some "2026-02-16T01:00:00.000Z" },
     sets := [histEntry "a1" 100 5] },
   { session := { id := "b", endedAt := none },
     sets := [histEntry "b1" 90 5] },
   { session := { id := "c", endedAt := some "2026-02-10T01:00:00.000Z" },
     sets := [histEntry "c1" 80 5] }]

/-- Witness for C5: the in-progress session is dropped and the trend spans
the two retained sessions. -/
theorem C5_witness :
    (summarizeExerciseHistory exampleSessions).trendDeltaOneRepMax =
      calculateEstimatedOneRepMax 100 5 - calculateEstimatedOneRepMax 80 5 := by
  have h := (C5_history_excludes_unended exampleSessions).2.1 (by decide)
  rw [h]
  rfl

/-- C6: a session's best set is the first work set (input order) attaining the
maximal estimated 1RM, it is none exactly when the session has no work sets
(contributing 0), its recorded 1RM is the shared score of that set, and
`bestRecentSet` is picked from the retained sessions' best sets by the same
first-maximal scan. -/
theorem C6_best_set_first_maximal :
    (∀ l : List SetEntry, pickBestSet l = none ↔ l = []) ∧
    (∀ (l : List SetEntry) (b : SetEntry), pickBestSet l = some b →
      ∃ l₁ l₂, l = l₁ ++ b :: l₂ ∧
        (∀ s ∈ l₁, entryScore s < entryScore b) ∧
        (∀ s ∈ l, entryScore s ≤ entryScore b)) ∧
    (∀ item : SessionWithSets,
      (sessionMetric item).bestSet =
        pickBestSet (item.sets.filter fun s => !s.isWarmup) ∧
      ((item.sets.filter fun s => !s.isWarmup) = [] →
        (sessionMetric item).bestEstimatedOneRepMax = 0) ∧
      (∀ b, (sessionMetric item).bestSet = some b →
        (sessionMetric item).bestEstimatedOneRepMax = entryScore b)) ∧
    (∀ sessions : List SessionWithSets,
      (summarizeExerciseHistory sessions).bestRecentSet =
        pickBestSet
          (((summarizeExerciseHistory sessions).sessions.map
            fun m => m.bestSet).filterMap id)) := by
  refine ⟨?_, ?_, ?_, ?_⟩
  · intro l
    cases l with
    | nil =>
      constructor
      · intro _; rfl
      · intro _; rfl
    | cons a t =>
      rw [pickBestSet_cons]
      constructor
      · intro h; exact Option.noConfusion h
      · intro h; exact List.noConfusion h
  · intro l b hpick
    cases l with
    | nil => exact Option.noConfusion hpick
    | cons a t =>
      rw [pickBestSet_cons] at hpick
      have hb : pickBestGo a t = b := Option.some.inj hpick
      obtain ⟨l₁, l₂, hdec, hlt, hle⟩ := pickBestGo_first_max t a
      rw [hb] at hdec hlt hle
      exact ⟨l₁, l₂, hdec, hlt, hle⟩
  · intro item
    refine ⟨rfl, ?_, ?_⟩
    · intro h
      simp only [sessionMetric]
      rw [h]
      rfl
    · intro b hb
      simp only [sessionMetric] at hb ⊢
      rw [hb]
      rfl
  · intro sessions
    rfl

/-- Witness for C6: on three work sets whose middle set attains the maximal
estimated 1RM (tied with the third), the best set is the middle one. -/
theorem C6_witness :
    ∃ l₁ l₂,
      [histEntry "a" 100 5, histEntry "b" 120 5, histEntry "c" 120 5] =
        l₁ ++ histEntry "b" 120 5 :: l₂ ∧
      (∀ s ∈ l₁, entryScore s < entryScore (histEntry "b" 120 5)) ∧
      (∀ s ∈ [histEntry "a" 100 5, histEntry "b" 120 5, histEntry "c" 120 5],
        entryScore s ≤ entryScore (histEntry "b" 120 5)) :=
  C6_best_set_first_maximal.2.1
    [histEntry "a" 100 5, histEntry "b" 120 5, histEntry "c" 120 5]
    (histEntry "b" 120 5)
    (by
      rw [pickBestSet_cons]
      norm_num [pickBestGo, entryScore, calculateEstimatedOneRepMax, histEntry])

end Workout
